import Mathlib

/-
Verification of the telegram expense bot (src/bot.py).

Embedding conventions:
- Python strings are modelled as `List Char`; `pyStrip`, `pySplitL`, `lowCh`,
  `isPre` model `str.strip()`, `str.split()`, `str.lower()` and `str.startswith`
  on the ASCII texts the bot handles.
- Monetary values are modelled as exact rationals.  The program stores amounts
  produced by the builtin `float(...)`; `parseFloatL` models the accepted
  surface syntax of `float` on finite decimal literals (sign, digits, decimal
  point, exponent), reading the literal exactly.  The special forms
  `inf`, `nan` and digit underscores are outside the model.
- The database is modelled as an in-memory `Store`; `created_at` is a
  strictly increasing logical clock stamped at insert time, and the calendar
  is modelled by the `curMonth`/`curDay`/`daysInMonth` fields of the store.
- The dispatcher returns, besides the new store and the reply text, the list
  of Ledger Store operations it performed, so that access-control claims
  about "no store operation is invoked" can be stated.
-/

set_option maxRecDepth 20000

/-- Whitespace characters recognised by Python `str.strip` / `str.split`
(ASCII subset). -/
def isWs (c : Char) : Bool :=
  c.toNat = 32 || c.toNat = 9 || c.toNat = 10 || c.toNat = 13 ||
  c.toNat = 11 || c.toNat = 12

/-- Decimal digit test, by character code. -/
def isDigitCh (c : Char) : Bool :=
  48 ≤ c.toNat && c.toNat ≤ 57

/-- ASCII lower-casing of one character, modelling `str.lower` on the
command tokens the bot compares. -/
def lowCh (c : Char) : Char :=
  if 65 ≤ c.toNat && c.toNat ≤ 90 then Char.ofNat (c.toNat + 32) else c

/-- Remove trailing whitespace. -/
def trimEnd : List Char → List Char
  | [] => []
  | c :: cs =>
    match trimEnd cs with
    | [] => if isWs c then [] else [c]
    | r => c :: r

/-- Model of Python `str.strip()`: remove leading and trailing whitespace. -/
def pyStrip (l : List Char) : List Char :=
  trimEnd (l.dropWhile isWs)

/-- Worker for `pySplitL`; `acc` holds the current token reversed. -/
def pySplitA : List Char → List Char → List (List Char)
  | [], acc => if acc = [] then [] else [acc.reverse]
  | c :: cs, acc =>
    if isWs c then
      (if acc = [] then pySplitA cs [] else acc.reverse :: pySplitA cs [])
    else pySplitA cs (c :: acc)

/-- Model of Python `str.split()` with no argument: split on whitespace runs,
dropping empty tokens. -/
def pySplitL (l : List Char) : List (List Char) :=
  pySplitA l []

/-- Join a list of strings with a separator, modelling `sep.join(parts)`. -/
def joinWith (sep : List Char) : List (List Char) → List Char
  | [] => []
  | [t] => t
  | t :: ts => t ++ sep ++ joinWith sep ts

/-- Single space separator. -/
def sp : List Char := [' ']

/-- Prefix test on character lists, modelling `str.startswith`. -/
def isPre : List Char → List Char → Bool
  | [], _ => true
  | _ :: _, [] => false
  | a :: as, b :: bs => decide (a = b) && isPre as bs

/-- Value of a string of decimal digits. -/
def digitsToNat (l : List Char) : Nat :=
  l.foldl (fun a c => a * 10 + (c.toNat - 48)) 0

/-- All characters are decimal digits. -/
def allDigits (l : List Char) : Bool :=
  l.all isDigitCh

/-- Parse the mantissa part of a float literal: `digits`, `digits.`,
`.digits` or `digits.digits`, with at least one digit. -/
def parseMantissa (s : List Char) : Option ℚ :=
  let ip := s.takeWhile (fun c => decide (c ≠ '.'))
  let rest := s.dropWhile (fun c => decide (c ≠ '.'))
  match rest with
  | [] => if ip ≠ [] && allDigits ip then some ((digitsToNat ip : ℚ)) else none
  | _ :: frac =>
    if allDigits ip && allDigits frac && (ip ≠ [] || frac ≠ []) then
      some ((digitsToNat ip : ℚ) + (digitsToNat frac : ℚ) / ((10 : ℚ) ^ frac.length))
    else none

/-- Parse the text after `e`/`E` in a float literal: optional sign, digits. -/
def parseExpSuffix (s : List Char) : Option Int :=
  match s with
  | '+' :: ds => if ds ≠ [] && allDigits ds then some ((digitsToNat ds : Int)) else none
  | '-' :: ds => if ds ≠ [] && allDigits ds then some (-(digitsToNat ds : Int)) else none
  | ds => if ds ≠ [] && allDigits ds then some ((digitsToNat ds : Int)) else none

/-- Scale a rational by a signed power of ten. -/
def applyExp (q : ℚ) (e : Int) : ℚ :=
  match e with
  | .ofNat n => q * (10 : ℚ) ^ n
  | .negSucc n => q / (10 : ℚ) ^ (n + 1)

/-- Parse an unsigned float literal, with optional exponent part. -/
def parseUnsignedF (s : List Char) : Option ℚ :=
  let m := s.takeWhile (fun c => decide (c ≠ 'e' ∧ c ≠ 'E'))
  let r := s.dropWhile (fun c => decide (c ≠ 'e' ∧ c ≠ 'E'))
  match r with
  | [] => parseMantissa m
  | _ :: es =>
    match parseMantissa m, parseExpSuffix es with
    | some q, some e => some (applyExp q e)
    | _, _ => none

/-- Model of the builtin `float(s)` on finite decimal literals: strip
whitespace, optional sign, mantissa, optional exponent.  Returns `none`
where `float` raises `ValueError`.  The forms `inf`, `nan` and digit
underscores are outside the model. -/
def parseFloatL (s : List Char) : Option ℚ :=
  match pyStrip s with
  | '+' :: r => parseUnsignedF r
  | '-' :: r => (parseUnsignedF r).map (fun q => -q)
  | r => parseUnsignedF r

/-- Smallest exponent `k` with `d` dividing `10 ^ k`, searched up to 40. -/
def decExpSearch (d : Nat) : Option Nat :=
  (List.range 40).find? (fun k => 10 ^ k % d = 0)

/-- Model of Python `str(x)` for the float values the bot prints: integral
values print with a trailing `.0`, other terminating decimals print their
exact digits.  Scientific notation for very large or small magnitudes is
outside the model. -/
def pyFloatRepr (q : ℚ) : List Char :=
  let sgn : List Char := if q < 0 then ['-'] else []
  let a : ℚ := if q < 0 then -q else q
  if a.den = 1 then sgn ++ (Nat.toDigits 10 a.num.natAbs) ++ ['.', '0']
  else
    match decExpSearch a.den with
    | none => sgn ++ (Nat.toDigits 10 a.num.natAbs) ++ ['/'] ++ (Nat.toDigits 10 a.den)
    | some k =>
      let n := (a * (10 : ℚ) ^ k).num.natAbs
      let ip := n / 10 ^ k
      let fp := n % 10 ^ k
      let fpChars := Nat.toDigits 10 fp
      sgn ++ (Nat.toDigits 10 ip) ++ ['.'] ++ List.replicate (k - fpChars.length) '0' ++ fpChars

/-- Rounding to two decimal places, half to even, modelling `round(x, 2)`
as used for display values. -/
def rnd2 (q : ℚ) : ℚ :=
  (((if q * 100 - ((⌊q * 100⌋ : Int) : ℚ) < 1 / 2 then ⌊q * 100⌋
     else if (1 : ℚ) / 2 < q * 100 - ((⌊q * 100⌋ : Int) : ℚ) then ⌊q * 100⌋ + 1
     else if ⌊q * 100⌋ % 2 = 0 then ⌊q * 100⌋ else ⌊q * 100⌋ + 1 : Int) : ℚ)) / 100

/-- Join reply lines with a newline, modelling `"\n".join(lines)`. -/
def joinLines : List (List Char) → List Char
  | [] => []
  | [s] => s
  | s :: ss => s ++ ('\n' :: joinLines ss)

/-- Startup configuration read from the environment: the comma separated
allow-list `ALLOWED_USER_IDS` and the default `MONTHLY_BUDGET`. -/
structure Config where
  allowed_user_ids : List (List Char)
  monthly_budget_env : ℚ
deriving DecidableEq

/-- One row of the `expenses` table.  `month` and `day` model the calendar
position of `created_at` (the SQL groups by `to_char(created_at)`), and
`created_at` itself is the logical insertion clock. -/
structure Expense where
  id : Nat
  user_id : Int
  username : List Char
  amount : ℚ
  category : List Char
  note : List Char
  month : Nat
  day : Nat
  created_at : Nat
deriving DecidableEq

/-- The database plus the current date: `settings` is the key/value table,
`nextId` the `SERIAL` counter (starting at 1), `clock` the insertion
timestamp counter. -/
structure Store where
  expenses : List Expense
  settings : List (List Char × List Char)
  nextId : Nat
  clock : Nat
  curMonth : Nat
  curDay : Nat
  daysInMonth : Nat
deriving DecidableEq

/-- One inbound chat message. -/
structure Msg where
  chat_id : Int
  user_id : Int
  username : List Char
  text : List Char
deriving DecidableEq

/-- Ledger Store operations, recorded by the dispatcher as it works. -/
inductive StoreOp where
  | insert (uid : Int) (amount : ℚ) (category : List Char) (note : List Char)
  | readTodayUser (uid : Int)
  | readTodayAll
  | readMonthAll
  | readMonthUser (uid : Int)
  | readByUser
  | deleteLast (uid : Int)
  | readSetting (key : List Char)
  | writeSetting (key : List Char) (value : List Char)
deriving DecidableEq

/-- Result of handling one message: new store, the store operations that
were performed, and the reply text sent back. -/
structure HandleResult where
  store : Store
  ops : List StoreOp
  reply : List Char
deriving DecidableEq

/-- The dictionary built by `compute_forecast_and_stats`. -/
structure Stats where
  total_month : ℚ
  total_today : ℚ
  avg_daily : ℚ
  predicted : ℚ
  remaining : ℚ
  days_left : Int
  days_in_month : Nat
  will_exceed : Bool
deriving DecidableEq

/-- Key of the budget setting. -/
def budgetKey : List Char := "budget".data

/-- Sum of the amounts of a list of rows; the empty sum is 0, as the code
maps SQL NULL to 0.0. -/
def sumAmounts (l : List Expense) : ℚ :=
  l.foldr (fun e a => e.amount + a) 0

/-- Rows of the current month. -/
def monthRows (st : Store) : List Expense :=
  st.expenses.filter (fun e => decide (e.month = st.curMonth))

/-- Rows of one user within the current month. -/
def userMonthRows (st : Store) (uid : Int) : List Expense :=
  st.expenses.filter (fun e => decide (e.user_id = uid ∧ e.month = st.curMonth))

/-- Model of `get_month_totals`. -/
def get_month_totals (st : Store) : ℚ :=
  sumAmounts (monthRows st)

/-- Model of `get_today_total`. -/
def get_today_total (st : Store) : ℚ :=
  sumAmounts (st.expenses.filter (fun e => decide (e.month = st.curMonth ∧ e.day = st.curDay)))

/-- Model of `get_user_today_total`. -/
def get_user_today_total (st : Store) (uid : Int) : ℚ :=
  sumAmounts (st.expenses.filter
    (fun e => decide (e.user_id = uid ∧ e.month = st.curMonth ∧ e.day = st.curDay)))

/-- Model of `get_user_month_total`. -/
def get_user_month_total (st : Store) (uid : Int) : ℚ :=
  sumAmounts (userMonthRows st uid)

/-- First-occurrence deduplication of user labels. -/
def dedupL : List (List Char) → List (List Char)
  | [] => []
  | s :: ss => s :: (dedupL ss).filter (fun t => decide (t ≠ s))

/-- Insert into a list sorted by total, descending. -/
def insByTotal (p : List Char × ℚ) : List (List Char × ℚ) → List (List Char × ℚ)
  | [] => [p]
  | q :: qs => if p.2 > q.2 then p :: q :: qs else q :: insByTotal p qs

/-- Sort user totals by total, descending. -/
def sortByTotalDesc : List (List Char × ℚ) → List (List Char × ℚ)
  | [] => []
  | p :: ps => insByTotal p (sortByTotalDesc ps)

/-- Model of `get_by_user_month`: per-user totals of the current month,
sorted by total descending. -/
def get_by_user_month (st : Store) : List (List Char × ℚ) :=
  let rows := monthRows st
  let labels := dedupL (rows.map (fun e => e.username))
  sortByTotalDesc (labels.map
    (fun u => (u, sumAmounts (rows.filter (fun e => decide (e.username = u))))))

/-- Pick the row with the greatest `created_at`, modelling
`ORDER BY created_at DESC LIMIT 1` (ties, which the store never produces
under the store invariant, resolve to the later list element). -/
def pickLatest : List Expense → Option Expense
  | [] => none
  | e :: es =>
    match pickLatest es with
    | none => some e
    | some m => if e.created_at < m.created_at then some m else some e

/-- Model of `delete_last_user_expense`: delete the row whose id the inner
`SELECT ... ORDER BY created_at DESC LIMIT 1` returns, and report
`bool(r and r[0])` on the returned id. -/
def delete_last_user_expense (st : Store) (uid : Int) : Store × Bool :=
  match pickLatest (userMonthRows st uid) with
  | none => (st, false)
  | some tgt =>
    ({ st with expenses := st.expenses.filter (fun e => decide (e.id ≠ tgt.id)) },
     decide (tgt.id ≠ 0))

/-- Model of `get_setting`. -/
def get_setting (st : Store) (key : List Char) : Option (List Char) :=
  (st.settings.find? (fun p => decide (p.1 = key))).map (fun p => p.2)

/-- Model of `set_setting`: an upsert on the settings table. -/
def set_setting (st : Store) (key value : List Char) : Store :=
  if st.settings.any (fun p => decide (p.1 = key)) then
    { st with settings := st.settings.map (fun p => if p.1 = key then (key, value) else p) }
  else
    { st with settings := st.settings ++ [(key, value)] }

/-- Model of `get_budget`: a missing row, an empty value (falsy string) or
an unparseable value all fall back to the environment default. -/
def get_budget (cfg : Config) (st : Store) : ℚ :=
  match get_setting st budgetKey with
  | none => cfg.monthly_budget_env
  | some val =>
    if val = [] then cfg.monthly_budget_env
    else
      match parseFloatL val with
      | some q => q
      | none => cfg.monthly_budget_env

/-- Model of `add_expense_db`: append a row with the next id and the
current timestamp. -/
def add_expense_db (st : Store) (uid : Int) (uname : List Char) (amount : ℚ)
    (category note : List Char) : Store × Expense :=
  let e : Expense :=
    ⟨st.nextId, uid, uname, amount, category, note, st.curMonth, st.curDay, st.clock⟩
  ({ st with expenses := st.expenses ++ [e], nextId := st.nextId + 1, clock := st.clock + 1 }, e)

/-- Model of `is_allowed`: an empty allow-list admits everyone, otherwise
the stringified user id must be listed. -/
def is_allowed (cfg : Config) (user_id : Int) : Bool :=
  if cfg.allowed_user_ids = [] then true
  else decide ((toString user_id).data ∈ cfg.allowed_user_ids)

/-- The `/spent` token. -/
def spentTok : List Char := "/spent".data

/-- The `add ` token (with trailing space), lower-cased comparison target. -/
def addSpTok : List Char := "add ".data

/-- First reassignment of `t` in `parse_expense_text`: strip a leading
`/spent` as a raw character prefix. -/
def stripSpent (t : List Char) : List Char :=
  if isPre spentTok t then pyStrip (t.drop 6) else t

/-- Second reassignment of `t`: strip a leading `add ` token,
case-insensitively. -/
def stripAdd (t : List Char) : List Char :=
  if isPre addSpTok (t.map lowCh) then pyStrip (t.drop 4) else t

/-- Tail of `parse_expense_text` after the prefix stripping: split on
whitespace, parse the first token (commas removed) as a float, take the
second token as category and join the rest as the note. -/
def parseTail (t : List Char) : Option (ℚ × List Char × List Char) :=
  match pySplitL t with
  | [] => none
  | p0 :: rest =>
    match parseFloatL (p0.filter (fun c => decide (c ≠ ','))) with
    | none => none
    | some v =>
      let category := match rest with | [] => ([] : List Char) | c :: _ => c
      let note := joinWith sp (rest.drop 1)
      some (v, category, note)

/-- Model of `parse_expense_text`. -/
def parse_expense_text (text : List Char) : Option (ℚ × List Char × List Char) :=
  parseTail (stripAdd (stripSpent (pyStrip text)))

/-- The store operations performed by one `compute_forecast_and_stats`
call: the month total, the today total, and `get_budget` twice. -/
def forecastOps : List StoreOp :=
  [StoreOp.readMonthAll, StoreOp.readTodayAll,
   StoreOp.readSetting budgetKey, StoreOp.readSetting budgetKey]

/-- Model of `compute_forecast_and_stats`. -/
def compute_forecast_and_stats (cfg : Config) (st : Store) : Stats :=
  let total_month := get_month_totals st
  let total_today := get_today_total st
  let days_passed := st.curDay
  let dim := st.daysInMonth
  let avg_daily : ℚ := total_month / ((max days_passed 1 : Nat) : ℚ)
  let predicted : ℚ := avg_daily * (dim : ℚ)
  let remaining : ℚ := max (get_budget cfg st - total_month) 0
  { total_month := rnd2 total_month
    total_today := rnd2 total_today
    avg_daily := rnd2 avg_daily
    predicted := rnd2 predicted
    remaining := rnd2 remaining
    days_left := (dim : Int) - (st.curDay : Int)
    days_in_month := dim
    will_exceed := decide (predicted > get_budget cfg st) }

/-- Dispatch of a recognised slash command, modelling the `elif` chain of
`main`.  `text` is the stripped message text (re-parsed by the `/spent`
branch), `cmd` the lower-cased first token, `args` the remaining tokens. -/
def dispatchCmd (cfg : Config) (st : Store) (uid : Int) (uname : List Char)
    (chat_id : Int) (text : List Char) (cmd : List Char)
    (args : List (List Char)) : HandleResult :=
  if cmd = "/start".data then
    ⟨st, [], "👋 Hi! Send expenses like: `50 food lunch` or `/spent 50 food lunch`. Use /summary for stats.".data⟩
  else if cmd = "/spent".data then
    match parse_expense_text text with
    | none => ⟨st, [], "Usage: /spent <amount> [category] [note]".data⟩
    | some (amt, cat, note) =>
      ⟨(add_expense_db st uid uname amt cat note).1,
       [StoreOp.insert uid amt cat note],
       "✅ Logged ".data ++ pyFloatRepr amt ++ " AED (".data ++ cat ++ [')']⟩
  else if cmd = "/daily".data ∨ cmd = "/today".data then
    ⟨st, [StoreOp.readTodayUser uid],
     "Your spending today: ".data ++ pyFloatRepr (get_user_today_total st uid) ++ " AED".data⟩
  else if cmd = "/monthly".data ∨ cmd = "/total".data then
    ⟨st, [StoreOp.readMonthAll],
     "This month\x27s total: ".data ++ pyFloatRepr (get_month_totals st) ++ " AED".data⟩
  else if cmd = "/predict".data then
    let s := compute_forecast_and_stats cfg st
    ⟨st, forecastOps,
     "Forecast: ".data ++ pyFloatRepr s.predicted ++ " AED. ".data ++
       (if s.will_exceed then "⚠️ You will exceed budget!".data else "✅ On track".data)⟩
  else if cmd = "/summary".data then
    let s := compute_forecast_and_stats cfg st
    let by_user := get_by_user_month st
    ⟨st, forecastOps ++ [StoreOp.readByUser, StoreOp.readSetting budgetKey],
     joinLines (["📊 Summary - ".data ++ (toString st.curMonth).data,
       "Today: ".data ++ pyFloatRepr s.total_today ++ " AED".data,
       "Month: ".data ++ pyFloatRepr s.total_month ++ " AED".data,
       "Remaining: ".data ++ pyFloatRepr s.remaining ++ " AED (Budget ".data ++
         pyFloatRepr (get_budget cfg st) ++ " AED)".data,
       "Days left: ".data ++ (toString s.days_left).data,
       "Forecast: ".data ++ pyFloatRepr s.predicted ++ " AED ".data ++
         (if s.will_exceed then "⚠️".data else []),
       [], "🔎 By user:".data] ++
       by_user.map (fun u => "- ".data ++ u.1 ++ ": ".data ++ pyFloatRepr u.2 ++ " AED".data))⟩
  else if cmd = "/me".data then
    ⟨st, [StoreOp.readMonthUser uid],
     "You spent ".data ++ pyFloatRepr (get_user_month_total st uid) ++ " AED this month.".data⟩
  else if cmd = "/undo".data then
    let r := delete_last_user_expense st uid
    ⟨r.1, [StoreOp.deleteLast uid],
     if r.2 then "✅ Last expense removed.".data else "Nothing to undo.".data⟩
  else if cmd = "/setbudget".data then
    match args with
    | [] => ⟨st, [], "Usage: /setbudget <amount>".data⟩
    | a0 :: _ =>
      match parseFloatL a0 with
      | some new_b =>
        ⟨set_setting st budgetKey (pyFloatRepr new_b),
         [StoreOp.writeSetting budgetKey (pyFloatRepr new_b)],
         "✅ Budget updated to ".data ++ pyFloatRepr new_b ++ " AED".data⟩
      | none => ⟨st, [], "Invalid amount.".data⟩
  else if cmd = "/budget".data then
    ⟨st, [StoreOp.readSetting budgetKey],
     "Budget: ".data ++ pyFloatRepr (get_budget cfg st) ++ " AED".data⟩
  else if cmd = "/balance".data then
    let s := compute_forecast_and_stats cfg st
    ⟨st, forecastOps,
     "Remaining this month: ".data ++ pyFloatRepr s.remaining ++ " AED".data⟩
  else if cmd = "/daysleft".data then
    let s := compute_forecast_and_stats cfg st
    ⟨st, forecastOps,
     "Days left: ".data ++ (toString s.days_left).data ++ " of ".data ++
       (toString s.days_in_month).data⟩
  else if cmd = "/whoami".data then
    ⟨st, [],
     "Your ID: ".data ++ (toString uid).data ++ ('\n' :: "Chat ID: ".data) ++
       (toString chat_id).data⟩
  else
    ⟨st, [], "Unknown command. Use /summary, /spent, /daily, /predict.".data⟩

/-- Handling of one inbound message, modelling the per-update body of the
polling loop in `main`: strip the text, check the allow-list, dispatch a
slash command or try the free-text expense parse. -/
def handleMessage (cfg : Config) (st : Store) (msg : Msg) : HandleResult :=
  if is_allowed cfg msg.user_id = false then
    ⟨st, [], "🚫 You are not allowed to use this bot.".data⟩
  else if isPre ['/'] (pyStrip msg.text) then
    dispatchCmd cfg st msg.user_id msg.username msg.chat_id (pyStrip msg.text)
      (((pySplitL (pyStrip msg.text)).headD []).map lowCh)
      ((pySplitL (pyStrip msg.text)).drop 1)
  else
    match parse_expense_text (pyStrip msg.text) with
    | some (amt, cat, note) =>
      ⟨(add_expense_db st msg.user_id msg.username amt cat note).1,
       [StoreOp.insert msg.user_id amt cat note],
       "✅ Logged ".data ++ pyFloatRepr amt ++ " AED (".data ++ cat ++ [')']⟩
    | none =>
      ⟨st, [],
       "I didn\x27t understand. Send `/spent 50 food note` or just `50 food note`.".data⟩

/-- Pairwise disequality of a projection over a row list, used for the
store invariants. -/
def pairwiseNeBy (f : Expense → Nat) : List Expense → Bool
  | [] => true
  | e :: es => es.all (fun x => decide (f x ≠ f e)) && pairwiseNeBy f es

/-- Store invariant maintained by the model: ids are positive (SERIAL
starts at 1), ids are pairwise distinct, and insertion timestamps are
pairwise distinct. -/
abbrev StoreWF (st : Store) : Prop :=
  (∀ e ∈ st.expenses, 1 ≤ e.id) ∧
  pairwiseNeBy (fun e => e.id) st.expenses = true ∧
  pairwiseNeBy (fun e => e.created_at) st.expenses = true

/-- A nonempty whitespace-free token. -/
abbrev IsTok (t : List Char) : Prop :=
  t ≠ [] ∧ ∀ c ∈ t, isWs c = false

/-- All entries are tokens. -/
abbrev TokList (ts : List (List Char)) : Prop :=
  ∀ t ∈ ts, IsTok t

/-- An amount token: nonempty, made of digits and at most a decimal
point. -/
abbrev AmtTok (t : List Char) : Prop :=
  t ≠ [] ∧ ∀ c ∈ t, isDigitCh c = true ∨ c = '.'

/-- Configuration with an empty allow-list and default budget 300. -/
def cfgOpen : Config := ⟨[], 300⟩

/-- Configuration whose allow-list holds only user id 42. -/
def cfgLocked : Config := ⟨["42".data], 300⟩

/-- An empty store on day 15 of a 30-day month with a budget setting of
300. -/
def stEmpty : Store := ⟨[], [(budgetKey, "300".data)], 1, 0, 1, 15, 30⟩

/-- Insert a list of amounts for one user (empty category and note). -/
def insertAmounts (st : Store) (uid : Int) (uname : List Char) (amts : List ℚ) : Store :=
  amts.foldl (fun s a => (add_expense_db s uid uname a [] []).1) st

/-- Store holding expenses 10, 20 and 30 for user 7 in the current month. -/
def stThree : Store := insertAmounts stEmpty 7 "u".data [10, 20, 30]

/-- Store with a single month-to-date total of 150 (day 15 of 30, budget
300). -/
def stM150 : Store := insertAmounts stEmpty 7 "u".data [150]

/-- Store with a single month-to-date total of 200 (day 15 of 30, budget
300). -/
def stM200 : Store := insertAmounts stEmpty 7 "u".data [200]

/-- Store with no budget row at all. -/
def stNoBudget : Store := ⟨[], [], 1, 0, 1, 15, 30⟩

/-- Store whose budget row holds the empty string. -/
def stEmptyVal : Store := ⟨[], [(budgetKey, [])], 1, 0, 1, 15, 30⟩

/-- Store whose budget row holds an unparseable string. -/
def stBadVal : Store := ⟨[], [(budgetKey, "abc".data)], 1, 0, 1, 15, 30⟩

/-- One-step unfolding of `trimEnd` on a cons. -/
theorem trimEnd_cons (c : Char) (cs : List Char) :
    trimEnd (c :: cs) =
      (match trimEnd cs with
       | [] => if isWs c then [] else [c]
       | r => c :: r) := by
  simp only [trimEnd]

/-- One-step unfolding of `pySplitA` on a non-whitespace head. -/
theorem pySplitA_cons_nws (c : Char) (cs acc : List Char) (hc : isWs c = false) :
    pySplitA (c :: cs) acc = pySplitA cs (c :: acc) := by
  simp [pySplitA, hc]

/-- One-step unfolding of `pySplitA` on a whitespace head. -/
theorem pySplitA_cons_ws (c : Char) (cs acc : List Char) (hc : isWs c = true) :
    pySplitA (c :: cs) acc =
      (if acc = [] then pySplitA cs [] else acc.reverse :: pySplitA cs []) := by
  simp [pySplitA, hc]

/-- Removing trailing whitespace from an all-token string changes
nothing. -/
theorem trimEnd_tok (t : List Char) (h : ∀ c ∈ t, isWs c = false) :
    trimEnd t = t := by
  induction t with
  | nil => rfl
  | cons c cs ih =>
    have hc : isWs c = false := h c (by simp)
    have hcs : trimEnd cs = cs := ih (fun x hx => h x (by simp [hx]))
    rw [trimEnd_cons, hcs]
    cases cs with
    | nil => simp [hc]
    | cons d ds => simp

/-- Removing trailing whitespace only looks at the tail. -/
theorem trimEnd_append_tail (t rest : List Char) (hr : trimEnd rest = rest)
    (hne : rest ≠ []) : trimEnd (t ++ rest) = t ++ rest := by
  induction t with
  | nil => simpa using hr
  | cons c cs ih =>
    have h2 : cs ++ rest ≠ [] := by
      intro hx
      exact hne (List.append_eq_nil.mp hx).2
    rw [List.cons_append, trimEnd_cons, ih]
    cases hcs : cs ++ rest with
    | nil => exact absurd hcs h2
    | cons d ds => simp

/-- Unfolding of `joinWith` on a cons with nonempty tail. -/
theorem joinWith_cons (sep : List Char) (t : List Char) (ts : List (List Char))
    (h : ts ≠ []) : joinWith sep (t :: ts) = t ++ sep ++ joinWith sep ts := by
  cases ts with
  | nil => exact absurd rfl h
  | cons u us => rfl

/-- A join of tokens is nonempty. -/
theorem joinWith_ne_nil (ts : List (List Char)) (h : TokList ts) (hne : ts ≠ []) :
    joinWith sp ts ≠ [] := by
  cases ts with
  | nil => exact absurd rfl hne
  | cons t us =>
    have ht : t ≠ [] := (h t (by simp)).1
    cases us with
    | nil => simpa [joinWith] using ht
    | cons v vs =>
      simp only [joinWith]
      intro hx
      exact ht (List.append_eq_nil.mp ((List.append_eq_nil.mp hx).1)).1

/-- A join of tokens has no trailing whitespace. -/
theorem trimEnd_join (ts : List (List Char)) (h : TokList ts) :
    trimEnd (joinWith sp ts) = joinWith sp ts := by
  induction ts with
  | nil => rfl
  | cons t us ih =>
    cases us with
    | nil => exact trimEnd_tok t (h t (by simp)).2
    | cons v vs =>
      have hrest : trimEnd (joinWith sp (v :: vs)) = joinWith sp (v :: vs) :=
        ih (fun x hx => h x (by simp [hx]))
      have hne : joinWith sp (v :: vs) ≠ [] :=
        joinWith_ne_nil (v :: vs) (fun x hx => h x (by simp [hx])) (by simp)
      have hsp : trimEnd (' ' :: joinWith sp (v :: vs)) = ' ' :: joinWith sp (v :: vs) := by
        rw [trimEnd_cons, hrest]
        cases hj : joinWith sp (v :: vs) with
        | nil => exact absurd hj hne
        | cons d ds => simp
      have hj2 : joinWith sp (t :: v :: vs) = t ++ (' ' :: joinWith sp (v :: vs)) := by
        simp [joinWith, sp]
      rw [hj2]
      exact trimEnd_append_tail t _ hsp (by simp)

/-- A join of tokens has no leading whitespace. -/
theorem dropWhile_join (ts : List (List Char)) (h : TokList ts) :
    (joinWith sp ts).dropWhile isWs = joinWith sp ts := by
  cases ts with
  | nil => rfl
  | cons t us =>
    have ht := h t (by simp)
    cases htl : t with
    | nil => exact absurd htl ht.1
    | cons c cs =>
      have hc : isWs c = false := ht.2 c (by simp [htl])
      cases us with
      | nil => simp [joinWith, htl, List.dropWhile_cons, hc]
      | cons v vs => simp [joinWith, htl, List.dropWhile_cons, hc]

/-- Stripping a join of tokens changes nothing. -/
theorem pyStrip_join (ts : List (List Char)) (h : TokList ts) :
    pyStrip (joinWith sp ts) = joinWith sp ts := by
  unfold pyStrip
  rw [dropWhile_join ts h, trimEnd_join ts h]

/-- The split worker consumes one whole token into the accumulator. -/
theorem pySplitA_chunk (t rest acc : List Char) (h : ∀ c ∈ t, isWs c = false) :
    pySplitA (t ++ rest) acc = pySplitA rest (t.reverse ++ acc) := by
  induction t generalizing acc with
  | nil => simp
  | cons c cs ih =>
    have hc : isWs c = false := h c (by simp)
    rw [List.cons_append, pySplitA_cons_nws c (cs ++ rest) acc hc,
      ih (c :: acc) (fun x hx => h x (by simp [hx]))]
    simp

/-- Splitting a join of tokens on whitespace recovers the tokens. -/
theorem pySplitL_join (ts : List (List Char)) (h : TokList ts) :
    pySplitL (joinWith sp ts) = ts := by
  induction ts with
  | nil => rfl
  | cons t us ih =>
    have ht := h t (by simp)
    cases us with
    | nil =>
      show pySplitA (joinWith sp [t]) [] = [t]
      have hj : joinWith sp [t] = t ++ [] := by simp [joinWith]
      rw [hj, pySplitA_chunk t [] [] ht.2]
      unfold pySplitA
      simp [ht.1]
    | cons v vs =>
      have hrest : pySplitL (joinWith sp (v :: vs)) = v :: vs :=
        ih (fun x hx => h x (by simp [hx]))
      have hj : joinWith sp (t :: v :: vs) = t ++ (' ' :: joinWith sp (v :: vs)) := by
        simp [joinWith, sp]
      show pySplitA (joinWith sp (t :: v :: vs)) [] = t :: v :: vs
      rw [hj, pySplitA_chunk t _ [] ht.2]
      rw [pySplitA_cons_ws ' ' _ _ (by decide)]
      have hacc : t.reverse ++ [] ≠ [] := by simpa using ht.1
      rw [if_neg hacc]
      rw [show pySplitA (joinWith sp (v :: vs)) [] = pySplitL (joinWith sp (v :: vs)) from rfl,
        hrest]
      simp

/-- Digits are not whitespace. -/
theorem isWs_of_digit (c : Char) (h : isDigitCh c = true) : isWs c = false := by
  simp only [isDigitCh, Bool.and_eq_true, decide_eq_true_eq] at h
  simp only [isWs, Bool.or_eq_false_iff, decide_eq_false_iff_not]
  omega

/-- Amount characters (digits or a point) are not whitespace. -/
theorem amtChar_not_ws (c : Char) (h : isDigitCh c = true ∨ c = '.') :
    isWs c = false := by
  rcases h with h | rfl
  · exact isWs_of_digit c h
  · decide

/-- Amount characters are not a slash. -/
theorem amtChar_ne_slash (c : Char) (h : isDigitCh c = true ∨ c = '.') :
    c ≠ '/' := by
  rcases h with h | rfl
  · intro he
    rw [he] at h
    exact absurd h (by decide)
  · decide

/-- Amount characters are not a comma. -/
theorem amtChar_ne_comma (c : Char) (h : isDigitCh c = true ∨ c = '.') :
    c ≠ ',' := by
  rcases h with h | rfl
  · intro he
    rw [he] at h
    exact absurd h (by decide)
  · decide

/-- Lower-casing a digit changes nothing. -/
theorem lowCh_eq_self_of_digit (c : Char) (h : isDigitCh c = true) :
    lowCh c = c := by
  simp only [isDigitCh, Bool.and_eq_true, decide_eq_true_eq] at h
  unfold lowCh
  rw [if_neg]
  simp only [Bool.and_eq_true, decide_eq_true_eq, not_and]
  omega

/-- Lower-casing an amount character never yields the letter a. -/
theorem amtChar_lowCh_ne_a (c : Char) (h : isDigitCh c = true ∨ c = '.') :
    lowCh c ≠ 'a' := by
  rcases h with h | rfl
  · rw [lowCh_eq_self_of_digit c h]
    intro he
    rw [he] at h
    exact absurd h (by decide)
  · decide

/-- An amount token is a token. -/
theorem amtTok_isTok (a : List Char) (ha : AmtTok a) : IsTok a :=
  ⟨ha.1, fun c hc => amtChar_not_ws c (ha.2 c hc)⟩

/-- The token list of an expense line. -/
theorem amt_toklist (a c : List Char) (ns : List (List Char))
    (ha : AmtTok a) (hc : IsTok c) (hns : TokList ns) :
    TokList (a :: c :: ns) := by
  intro t ht
  simp only [List.mem_cons] at ht
  rcases ht with rfl | rfl | ht
  · exact amtTok_isTok t ha
  · exact hc
  · exact hns t ht

/-- A token join starting with a known head character. -/
theorem joinWith_head (ch : Char) (t0 : List Char) (ts : List (List Char)) :
    ∃ r, joinWith sp ((ch :: t0) :: ts) = ch :: r := by
  cases ts with
  | nil => exact ⟨t0, rfl⟩
  | cons v vs => exact ⟨t0 ++ sp ++ joinWith sp (v :: vs), rfl⟩

/-- A prefix test fails when the heads differ. -/
theorem isPre_cons_ne (a b : Char) (as bs : List Char) (h : a ≠ b) :
    isPre (a :: as) (b :: bs) = false := by
  simp [isPre, h]

/-- A list starts with itself. -/
theorem isPre_append (p r : List Char) : isPre p (p ++ r) = true := by
  induction p with
  | nil => rfl
  | cons c cs ih => simp [isPre, ih]

/-- Stripping a leading whitespace character before a full strip. -/
theorem pyStrip_cons_ws (c : Char) (l : List Char) (h : isWs c = true) :
    pyStrip (c :: l) = pyStrip l := by
  unfold pyStrip
  rw [List.dropWhile_cons, h]
  simp

/-- The `/spent` prefix strip does nothing when the text starts with a
character other than a slash. -/
theorem stripSpent_id (ch : Char) (r : List Char) (h : ch ≠ '/') :
    stripSpent (ch :: r) = ch :: r := by
  have hp : isPre spentTok (ch :: r) = false := by
    rw [show spentTok = '/' :: "spent".data from by decide]
    exact isPre_cons_ne _ _ _ _ (Ne.symm h)
  unfold stripSpent
  rw [hp]
  simp

/-- The `add ` token strip does nothing when the lower-cased head is not
the letter a. -/
theorem stripAdd_id (ch : Char) (r : List Char) (h : lowCh ch ≠ 'a') :
    stripAdd (ch :: r) = ch :: r := by
  have hp : isPre addSpTok ((ch :: r).map lowCh) = false := by
    rw [List.map_cons, show addSpTok = 'a' :: "dd ".data from by decide]
    exact isPre_cons_ne _ _ _ _ (Ne.symm h)
  unfold stripAdd
  rw [hp]
  simp

/-- Behaviour of the parser tail on a joined expense line. -/
theorem parseTail_core (a c : List Char) (ns : List (List Char)) (v : ℚ)
    (ha : AmtTok a) (hc : IsTok c) (hns : TokList ns)
    (hv : parseFloatL a = some v) :
    parseTail (joinWith sp (a :: c :: ns)) = some (v, c, joinWith sp ns) := by
  have htl : TokList (a :: c :: ns) := amt_toklist a c ns ha hc hns
  have hfilter : a.filter (fun x => decide (x ≠ ',')) = a :=
    List.filter_eq_self.mpr
      (fun x hx => decide_eq_true (amtChar_ne_comma x (ha.2 x hx)))
  unfold parseTail
  rw [pySplitL_join _ htl]
  simp only [hfilter, hv]
  rfl

/-- Free-text parse of a joined expense line. -/
theorem parse_expense_core (a c : List Char) (ns : List (List Char)) (v : ℚ)
    (ha : AmtTok a) (hc : IsTok c) (hns : TokList ns)
    (hv : parseFloatL a = some v) :
    parse_expense_text (joinWith sp (a :: c :: ns)) = some (v, c, joinWith sp ns) := by
  have htl : TokList (a :: c :: ns) := amt_toklist a c ns ha hc hns
  obtain ⟨ch, t0, hat⟩ : ∃ ch t0, a = ch :: t0 := by
    cases a with
    | nil => exact absurd rfl ha.1
    | cons x xs => exact ⟨x, xs, rfl⟩
  have hch : isDigitCh ch = true ∨ ch = '.' := ha.2 ch (by simp [hat])
  obtain ⟨r, hr⟩ := joinWith_head ch t0 (c :: ns)
  unfold parse_expense_text
  rw [pyStrip_join _ htl, hat, hr,
    stripSpent_id ch r (amtChar_ne_slash ch hch),
    stripAdd_id ch r (amtChar_lowCh_ne_a ch hch), ← hr, ← hat]
  exact parseTail_core a c ns v ha hc hns hv

/-- The allow-list check fails for an unlisted user when the list is
nonempty. -/
theorem is_allowed_false_of (cfg : Config) (uid : Int)
    (h1 : cfg.allowed_user_ids ≠ [])
    (h2 : (toString uid).data ∉ cfg.allowed_user_ids) :
    is_allowed cfg uid = false := by
  unfold is_allowed
  rw [if_neg h1]
  exact decide_eq_false h2

/-- Reduction of `handleMessage` on an allowed user and a slash-command
text given as joined tokens. -/
theorem handleMessage_slash (cfg : Config) (st : Store) (msg : Msg)
    (tok : List Char) (args : List (List Char))
    (htl : TokList (tok :: args))
    (hhead : ∃ r, tok = '/' :: r)
    (hallow : is_allowed cfg msg.user_id = true)
    (htext : msg.text = joinWith sp (tok :: args)) :
    handleMessage cfg st msg =
      dispatchCmd cfg st msg.user_id msg.username msg.chat_id
        (joinWith sp (tok :: args)) (tok.map lowCh) args := by
  obtain ⟨r, hr⟩ := hhead
  have hstrip : pyStrip msg.text = joinWith sp (tok :: args) := by
    rw [htext]
    exact pyStrip_join _ htl
  have hslash : isPre ['/'] (joinWith sp (tok :: args)) = true := by
    obtain ⟨r2, hr2⟩ := joinWith_head '/' r args
    rw [hr, hr2]
    simp [isPre]
  unfold handleMessage
  rw [hstrip, hallow, hslash, pySplitL_join _ htl]
  rw [if_neg (by simp : ¬ (true = false)), if_pos rfl]
  rfl

/-- Every dispatcher branch except `/spent` ignores the raw text. -/
theorem dispatch_text_irrel (cfg : Config) (st : Store) (uid : Int)
    (un : List Char) (chat : Int) (t1 t2 cmd : List Char)
    (args : List (List Char)) (h : cmd ≠ "/spent".data) :
    dispatchCmd cfg st uid un chat t1 cmd args =
      dispatchCmd cfg st uid un chat t2 cmd args := by
  by_cases h1 : cmd = "/start".data
  · subst h1; rfl
  by_cases h3 : cmd = "/daily".data ∨ cmd = "/today".data
  · rcases h3 with h3 | h3 <;> (subst h3; rfl)
  by_cases h4 : cmd = "/monthly".data ∨ cmd = "/total".data
  · rcases h4 with h4 | h4 <;> (subst h4; rfl)
  by_cases h5 : cmd = "/predict".data
  · subst h5; rfl
  by_cases h6 : cmd = "/summary".data
  · subst h6; rfl
  by_cases h7 : cmd = "/me".data
  · subst h7; rfl
  by_cases h8 : cmd = "/undo".data
  · subst h8; rfl
  by_cases h9 : cmd = "/setbudget".data
  · subst h9; rfl
  by_cases h10 : cmd = "/budget".data
  · subst h10; rfl
  by_cases h11 : cmd = "/balance".data
  · subst h11; rfl
  by_cases h12 : cmd = "/daysleft".data
  · subst h12; rfl
  by_cases h13 : cmd = "/whoami".data
  · subst h13; rfl
  unfold dispatchCmd
  simp only [if_neg h1, if_neg h, if_neg h3, if_neg h4, if_neg h5, if_neg h6, if_neg h7,
    if_neg h8, if_neg h9, if_neg h10, if_neg h11, if_neg h12, if_neg h13]

/-- A pick from the empty candidate list only. -/
theorem pickLatest_eq_none (l : List Expense) : pickLatest l = none ↔ l = [] := by
  cases l with
  | nil => simp [pickLatest]
  | cons e es =>
    simp only [pickLatest]
    cases h : pickLatest es with
    | none => simp
    | some m =>
      constructor
      · intro hx
        by_cases hlt : e.created_at < m.created_at <;> simp [hlt] at hx
      · intro hx
        exact absurd hx (by simp)

/-- A picked row is a member of the candidate list. -/
theorem pickLatest_mem (l : List Expense) (m : Expense)
    (h : pickLatest l = some m) : m ∈ l := by
  induction l generalizing m with
  | nil => simp [pickLatest] at h
  | cons e es ih =>
    cases hes : pickLatest es with
    | none =>
      simp only [pickLatest, hes, Option.some.injEq] at h
      subst h
      simp
    | some x =>
      simp only [pickLatest, hes] at h
      by_cases hlt : e.created_at < x.created_at
      · rw [if_pos hlt] at h
        simp only [Option.some.injEq] at h
        rw [← h]
        exact List.mem_cons_of_mem e (ih x hes)
      · rw [if_neg hlt] at h
        simp only [Option.some.injEq] at h
        rw [← h]
        simp
    
/-- A picked row has the greatest timestamp among the candidates. -/
theorem pickLatest_max (l : List Expense) (m : Expense)
    (h : pickLatest l = some m) : ∀ x ∈ l, x.created_at ≤ m.created_at := by
  induction l generalizing m with
  | nil => simp
  | cons e es ih =>
    intro x hx
    cases hes : pickLatest es with
    | none =>
      simp only [pickLatest, hes, Option.some.injEq] at h
      subst h
      have hnil : es = [] := (pickLatest_eq_none es).mp hes
      subst hnil
      simp only [List.mem_singleton] at hx
      subst hx
      exact le_refl _
    | some y =>
      simp only [pickLatest, hes] at h
      simp only [List.mem_cons] at hx
      by_cases hlt : e.created_at < y.created_at
      · rw [if_pos hlt] at h
        simp only [Option.some.injEq] at h
        rw [← h]
        rcases hx with rfl | hx
        · exact le_of_lt hlt
        · exact ih y hes x hx
      · rw [if_neg hlt] at h
        simp only [Option.some.injEq] at h
        rw [← h]
        rcases hx with rfl | hx
        · exact le_refl _
        · exact le_trans (ih y hes x hx) (not_lt.mp hlt)

/-- Pairwise distinctness across a decomposition. -/
theorem pairwiseNeBy_decomp (f : Expense → Nat) (l1 : List Expense)
    (t : Expense) (l2 : List Expense)
    (h : pairwiseNeBy f (l1 ++ t :: l2) = true) :
    (∀ x ∈ l1, f x ≠ f t) ∧ (∀ x ∈ l2, f x ≠ f t) := by
  induction l1 with
  | nil =>
    simp only [List.nil_append, pairwiseNeBy, Bool.and_eq_true, List.all_eq_true] at h
    refine ⟨by simp, fun x hx => ?_⟩
    have hd := h.1 x (by simp [hx])
    simpa using hd
  | cons a as ih =>
    simp only [List.cons_append, pairwiseNeBy, Bool.and_eq_true, List.all_eq_true] at h
    obtain ⟨hall, hrest⟩ := h
    have hih := ih hrest
    refine ⟨?_, hih.2⟩
    intro x hx
    simp only [List.mem_cons] at hx
    rcases hx with rfl | hx
    · have h2 : f t ≠ f x := by
        have hd := hall t (by simp)
        simpa using hd
      exact fun he => h2 he.symm
    · exact hih.1 x hx

/-- Filtering out the id of a row present once removes exactly that
occurrence. -/
theorem filter_remove_target (l1 : List Expense) (t : Expense)
    (l2 : List Expense)
    (h1 : ∀ x ∈ l1, x.id ≠ t.id) (h2 : ∀ x ∈ l2, x.id ≠ t.id) :
    (l1 ++ t :: l2).filter (fun e => decide (e.id ≠ t.id)) = l1 ++ l2 := by
  rw [List.filter_append, List.filter_cons]
  have hself : (decide (t.id ≠ t.id)) = false := by simp
  rw [hself]
  simp only [Bool.false_eq_true, if_false]
  rw [List.filter_eq_self.mpr (fun x hx => decide_eq_true (h1 x hx)),
    List.filter_eq_self.mpr (fun x hx => decide_eq_true (h2 x hx))]

/-- Rounding a nonnegative value to two decimals stays nonnegative. -/
theorem rnd2_nonneg (q : ℚ) (h : 0 ≤ q) : 0 ≤ rnd2 q := by
  unfold rnd2
  have hx : (0 : ℚ) ≤ q * 100 := by positivity
  have hf : (0 : Int) ≤ ⌊q * 100⌋ := Int.floor_nonneg.mpr hx
  split_ifs
  · apply div_nonneg _ (by norm_num)
    exact_mod_cast hf
  · apply div_nonneg _ (by norm_num)
    exact_mod_cast (by omega : (0 : Int) ≤ ⌊q * 100⌋ + 1)
  · apply div_nonneg _ (by norm_num)
    exact_mod_cast hf
  · apply div_nonneg _ (by norm_num)
    exact_mod_cast (by omega : (0 : Int) ≤ ⌊q * 100⌋ + 1)

/-- C1: the specification invariant requires that an expense amount that is
zero or negative is rejected before persistence, on both the `/spent` path
and the free-text path.  The code does not reject: `/spent -5 food`
persists a row with amount -5, and the free-text line `0 coffee` then
persists a row with amount 0, so nonpositive amounts reach the store. -/
theorem c1_nonpositive_amount_persisted :
    ((handleMessage cfgOpen stEmpty ⟨1, 7, "u".data, "/spent -5 food".data⟩).store.expenses.map
        (fun e => e.amount) = [-5]) ∧
    ((handleMessage cfgOpen
        (handleMessage cfgOpen stEmpty ⟨1, 7, "u".data, "/spent -5 food".data⟩).store
        ⟨1, 7, "u".data, "0 coffee".data⟩).store.expenses.map
        (fun e => e.amount) = [-5, 0]) := by
  with_unfolding_all decide

/-- C2: the Forecast Engine returns average_daily = m / max(day, 1),
projected_total = average_daily * days_in_month, remaining_budget =
max(0, b - m) (rounded for display, never negative), days_left =
days_in_month - day, and a strict over_budget flag; with budget 300 and
month total 150 on day 15 of a 30-day month it reports 10.00 / 300.00 /
150.00 / not over budget, and with month total 200 it reports 13.33 /
400.00 / over budget. -/
theorem c2_forecast_engine :
    (∀ (cfg : Config) (st : Store),
      (compute_forecast_and_stats cfg st).avg_daily =
        rnd2 (get_month_totals st / ((max st.curDay 1 : Nat) : ℚ)) ∧
      (compute_forecast_and_stats cfg st).predicted =
        rnd2 (get_month_totals st / ((max st.curDay 1 : Nat) : ℚ) * (st.daysInMonth : ℚ)) ∧
      (compute_forecast_and_stats cfg st).remaining =
        rnd2 (max (get_budget cfg st - get_month_totals st) 0) ∧
      0 ≤ (compute_forecast_and_stats cfg st).remaining ∧
      (compute_forecast_and_stats cfg st).days_left =
        (st.daysInMonth : Int) - (st.curDay : Int) ∧
      ((compute_forecast_and_stats cfg st).will_exceed = true ↔
        get_budget cfg st <
          get_month_totals st / ((max st.curDay 1 : Nat) : ℚ) * (st.daysInMonth : ℚ))) ∧
    ((compute_forecast_and_stats cfgOpen stM150).avg_daily = 10 ∧
     (compute_forecast_and_stats cfgOpen stM150).predicted = 300 ∧
     (compute_forecast_and_stats cfgOpen stM150).remaining = 150 ∧
     (compute_forecast_and_stats cfgOpen stM150).will_exceed = false) ∧
    ((compute_forecast_and_stats cfgOpen stM200).avg_daily = 1333 / 100 ∧
     (compute_forecast_and_stats cfgOpen stM200).predicted = 400 ∧
     (compute_forecast_and_stats cfgOpen stM200).will_exceed = true) := by
  refine ⟨fun cfg st => ⟨rfl, rfl, rfl, ?_, rfl, ?_⟩, ?_, ?_⟩
  · exact rnd2_nonneg _ (le_max_right _ _)
  · dsimp only [compute_forecast_and_stats]
    rw [decide_eq_true_eq]
  · with_unfolding_all decide
  · with_unfolding_all decide

/-- C3: when the configured allow-list is nonempty and the sender is not
on it, the handler performs no Ledger Store operation at all (the
operation trace is empty, the store is unchanged) and the only reply is
the rejection notice, whatever the message text is. -/
theorem c3_allowlist_blocks (cfg : Config) (st : Store) (msg : Msg)
    (h1 : cfg.allowed_user_ids ≠ [])
    (h2 : (toString msg.user_id).data ∉ cfg.allowed_user_ids) :
    handleMessage cfg st msg =
      ⟨st, [], "🚫 You are not allowed to use this bot.".data⟩ := by
  unfold handleMessage
  rw [is_allowed_false_of cfg msg.user_id h1 h2, if_pos rfl]

/-- Witness for C3 at a locked-down configuration and a read-only
command. -/
theorem c3_allowlist_blocks_witness :
    cfgLocked.allowed_user_ids ≠ [] ∧
    (toString (7 : Int)).data ∉ cfgLocked.allowed_user_ids ∧
    handleMessage cfgLocked stThree ⟨1, 7, "u".data, "/me".data⟩ =
      ⟨stThree, [], "🚫 You are not allowed to use this bot.".data⟩ :=
  ⟨by decide, by decide,
   c3_allowlist_blocks cfgLocked stThree ⟨1, 7, "u".data, "/me".data⟩
     (by decide) (by decide)⟩

/-- C4: for every positive decimal amount token, single-token category and
note, parsing the free-text line and parsing the same line prefixed with
`/spent ` yield the same expense triple (amount value, category, note). -/
theorem c4_spent_and_free_text_agree (a c : List Char) (ns : List (List Char))
    (v : ℚ) (ha : AmtTok a) (hc : IsTok c) (hns : TokList ns)
    (hv : parseFloatL a = some v) (hpos : 0 < v) :
    parse_expense_text ("/spent ".data ++ joinWith sp (a :: c :: ns)) =
      some (v, c, joinWith sp ns) ∧
    parse_expense_text (joinWith sp (a :: c :: ns)) = some (v, c, joinWith sp ns) := by
  refine ⟨?_, parse_expense_core a c ns v ha hc hns hv⟩
  have htl : TokList (a :: c :: ns) := amt_toklist a c ns ha hc hns
  have htl2 : TokList (spentTok :: a :: c :: ns) := by
    intro t ht
    simp only [List.mem_cons] at ht
    rcases ht with rfl | ht
    · exact ⟨by decide, by decide⟩
    · exact htl t (by simpa using ht)
  have hfull : "/spent ".data ++ joinWith sp (a :: c :: ns) =
      joinWith sp (spentTok :: a :: c :: ns) := by
    rw [joinWith_cons sp spentTok _ (by simp),
      show "/spent ".data = spentTok ++ sp from by decide]
  obtain ⟨ch, t0, hat⟩ : ∃ ch t0, a = ch :: t0 := by
    cases a with
    | nil => exact absurd rfl ha.1
    | cons x xs => exact ⟨x, xs, rfl⟩
  have hch : isDigitCh ch = true ∨ ch = '.' := ha.2 ch (by simp [hat])
  obtain ⟨r, hr⟩ := joinWith_head ch t0 (c :: ns)
  unfold parse_expense_text
  rw [hfull, pyStrip_join _ htl2, joinWith_cons sp spentTok _ (by simp)]
  unfold stripSpent
  rw [List.append_assoc, isPre_append, if_pos rfl,
    show (6 : Nat) = spentTok.length from by decide, List.drop_left,
    show sp ++ joinWith sp (a :: c :: ns) = ' ' :: joinWith sp (a :: c :: ns) from rfl,
    pyStrip_cons_ws ' ' _ (by decide), pyStrip_join _ htl, hat, hr,
    stripAdd_id ch r (amtChar_lowCh_ne_a ch hch), ← hr, ← hat]
  exact parseTail_core a c ns v ha hc hns hv

/-- Witness for C4 on the line `12.5 food lunch`. -/
theorem c4_witness :
    AmtTok "12.5".data ∧ IsTok "food".data ∧ TokList ["lunch".data] ∧
    parseFloatL "12.5".data = some (25 / 2) ∧ (0 : ℚ) < 25 / 2 ∧
    ("/spent ".data ++ joinWith sp ["12.5".data, "food".data, "lunch".data] =
      "/spent 12.5 food lunch".data) ∧
    (parse_expense_text ("/spent ".data ++
        joinWith sp ["12.5".data, "food".data, "lunch".data]) =
      some (25 / 2, "food".data, joinWith sp ["lunch".data]) ∧
     parse_expense_text (joinWith sp ["12.5".data, "food".data, "lunch".data]) =
      some (25 / 2, "food".data, joinWith sp ["lunch".data])) :=
  ⟨by decide, by decide, by decide, by with_unfolding_all decide,
   by with_unfolding_all decide, by decide,
   c4_spent_and_free_text_agree "12.5".data "food".data ["lunch".data] (25 / 2)
     (by decide) (by decide) (by decide) (by with_unfolding_all decide)
     (by with_unfolding_all decide)⟩

/-- C5: on a well-formed store, `/undo` for user u removes exactly one
row, the latest by timestamp among the rows of u within the current month,
leaving every other row unchanged and in place, and reports true; it
reports false and leaves the store unchanged exactly when u has no row in
the current month. -/
theorem c5_undo_semantics (st : Store) (u : Int) (hwf : StoreWF st) :
    (userMonthRows st u = [] → delete_last_user_expense st u = (st, false)) ∧
    (userMonthRows st u ≠ [] →
      ∃ tgt l1 l2,
        st.expenses = l1 ++ tgt :: l2 ∧
        tgt.user_id = u ∧ tgt.month = st.curMonth ∧
        (∀ e ∈ userMonthRows st u, e.created_at ≤ tgt.created_at) ∧
        (delete_last_user_expense st u).1 = { st with expenses := l1 ++ l2 } ∧
        (delete_last_user_expense st u).2 = true) := by
  constructor
  · intro hempty
    unfold delete_last_user_expense
    rw [hempty]
    rfl
  · intro hne
    cases hp : pickLatest (userMonthRows st u) with
    | none => exact absurd ((pickLatest_eq_none _).mp hp) hne
    | some tgt =>
      have htmem : tgt ∈ userMonthRows st u := pickLatest_mem _ _ hp
      have htprops : tgt.user_id = u ∧ tgt.month = st.curMonth := by
        have hmf := List.mem_filter.mp htmem
        simpa using hmf.2
      have htall : tgt ∈ st.expenses := (List.mem_filter.mp htmem).1
      obtain ⟨l1, l2, hdecomp⟩ := List.append_of_mem htall
      have hids := pairwiseNeBy_decomp (fun e => e.id) l1 tgt l2 (hdecomp ▸ hwf.2.1)
      have hid1 : 1 ≤ tgt.id := hwf.1 tgt htall
      refine ⟨tgt, l1, l2, hdecomp, htprops.1, htprops.2, pickLatest_max _ _ hp, ?_, ?_⟩
      · unfold delete_last_user_expense
        rw [hp]
        show { st with expenses := st.expenses.filter (fun e => decide (e.id ≠ tgt.id)) } = _
        rw [hdecomp, filter_remove_target l1 tgt l2 hids.1 hids.2]
      · unfold delete_last_user_expense
        rw [hp]
        show decide (tgt.id ≠ 0) = true
        exact decide_eq_true (by omega)

/-- Witness for C5: after inserting 10, 20, 30 for user 7 the month total
is 60, one undo removes the 30 row (the latest) leaving 10 and 20 with
total 30 and reports true. -/
theorem c5_witness :
    StoreWF stThree ∧
    get_user_month_total stThree 7 = 60 ∧
    (delete_last_user_expense stThree 7).1.expenses.map (fun e => e.amount) = [10, 20] ∧
    get_user_month_total (delete_last_user_expense stThree 7).1 7 = 30 ∧
    (delete_last_user_expense stThree 7).2 = true ∧
    (userMonthRows stThree 7 = [] → delete_last_user_expense stThree 7 = (stThree, false)) :=
  ⟨by with_unfolding_all decide, by with_unfolding_all decide,
   by with_unfolding_all decide, by with_unfolding_all decide,
   by with_unfolding_all decide,
   (c5_undo_semantics stThree 7 (by with_unfolding_all decide)).1⟩

/-- C6: dispatching `/setbudget s` for an argument token s that does not
parse as a decimal amount leaves the whole store (hence the budget
Setting) unchanged and replies with the invalid-amount notice; for an s
that parses to v it overwrites the budget Setting with v (as rendered by
str) and replies with a confirmation containing that value. -/
theorem c6_setbudget (cfg : Config) (st : Store) (chat uid : Int)
    (uname : List Char) (s : List Char)
    (hallow : is_allowed cfg uid = true) (hs : IsTok s) :
    (parseFloatL s = none →
      handleMessage cfg st ⟨chat, uid, uname, joinWith sp ["/setbudget".data, s]⟩ =
        ⟨st, [], "Invalid amount.".data⟩) ∧
    (∀ v, parseFloatL s = some v →
      handleMessage cfg st ⟨chat, uid, uname, joinWith sp ["/setbudget".data, s]⟩ =
        ⟨set_setting st budgetKey (pyFloatRepr v),
         [StoreOp.writeSetting budgetKey (pyFloatRepr v)],
         "✅ Budget updated to ".data ++ pyFloatRepr v ++ " AED".data⟩) := by
  have htl : TokList ["/setbudget".data, s] := by
    intro t ht
    simp only [List.mem_cons] at ht
    rcases ht with rfl | rfl | ht
    · exact ⟨by decide, by decide⟩
    · exact hs
    · simp at ht
  have hmain : handleMessage cfg st ⟨chat, uid, uname, joinWith sp ["/setbudget".data, s]⟩ =
      dispatchCmd cfg st uid uname chat (joinWith sp ["/setbudget".data, s])
        (("/setbudget".data).map lowCh) [s] :=
    handleMessage_slash cfg st _ ("/setbudget".data) [s] htl
      ⟨"setbudget".data, by decide⟩ hallow rfl
  rw [show ("/setbudget".data).map lowCh = "/setbudget".data from by decide] at hmain
  constructor
  · intro hnone
    rw [hmain]
    unfold dispatchCmd
    rw [if_neg (by decide), if_neg (by decide), if_neg (by decide), if_neg (by decide),
      if_neg (by decide), if_neg (by decide), if_neg (by decide), if_neg (by decide),
      if_pos rfl]
    simp only [hnone]
  · intro v hsome
    rw [hmain]
    unfold dispatchCmd
    rw [if_neg (by decide), if_neg (by decide), if_neg (by decide), if_neg (by decide),
      if_neg (by decide), if_neg (by decide), if_neg (by decide), if_neg (by decide),
      if_pos rfl]
    simp only [hsome]

/-- Witness for C6 at the unparseable argument `abc` and the parseable
argument `250`. -/
theorem c6_witness :
    IsTok "abc".data ∧ IsTok "250".data ∧
    joinWith sp ["/setbudget".data, "abc".data] = "/setbudget abc".data ∧
    parseFloatL "abc".data = none ∧ parseFloatL "250".data = some 250 ∧
    handleMessage cfgOpen stEmpty
        ⟨1, 7, "u".data, joinWith sp ["/setbudget".data, "abc".data]⟩ =
      ⟨stEmpty, [], "Invalid amount.".data⟩ ∧
    handleMessage cfgOpen stEmpty
        ⟨1, 7, "u".data, joinWith sp ["/setbudget".data, "250".data]⟩ =
      ⟨set_setting stEmpty budgetKey (pyFloatRepr 250),
       [StoreOp.writeSetting budgetKey (pyFloatRepr 250)],
       "✅ Budget updated to ".data ++ pyFloatRepr 250 ++ " AED".data⟩ :=
  ⟨by decide, by decide, by decide, by with_unfolding_all decide,
   by with_unfolding_all decide,
   (c6_setbudget cfgOpen stEmpty 1 7 "u".data "abc".data (by decide) (by decide)).1
     (by with_unfolding_all decide),
   (c6_setbudget cfgOpen stEmpty 1 7 "u".data "250".data (by decide) (by decide)).2 250
     (by with_unfolding_all decide)⟩

/-- C7 counterexample: slash-command recognition is not fully
case-insensitive in effect.  `/SPENT 50 food` is dispatched to the
`/spent` handler (its token is lower-cased), but that handler re-parses
the original text whose `/spent` prefix strip is case-sensitive, so the
upper-case message yields the usage hint and no insert, while the
lower-case message logs the expense: the two results differ. -/
theorem c7_case_insensitive_cex :
    (handleMessage cfgOpen stEmpty ⟨1, 7, "u".data, "/SPENT 50 food".data⟩).reply =
      "Usage: /spent <amount> [category] [note]".data ∧
    (handleMessage cfgOpen stEmpty ⟨1, 7, "u".data, "/SPENT 50 food".data⟩).store = stEmpty ∧
    (handleMessage cfgOpen stEmpty ⟨1, 7, "u".data, "/spent 50 food".data⟩).reply =
      "✅ Logged 50.0 AED (food)".data ∧
    (handleMessage cfgOpen stEmpty ⟨1, 7, "u".data, "/spent 50 food".data⟩).store.expenses.map
        (fun e => e.amount) = [50] ∧
    handleMessage cfgOpen stEmpty ⟨1, 7, "u".data, "/SPENT 50 food".data⟩ ≠
      handleMessage cfgOpen stEmpty ⟨1, 7, "u".data, "/spent 50 food".data⟩ := by
  with_unfolding_all decide

/-- C7 amended: the dispatcher lower-cases the first token, so for every
recognised command other than `/spent` a case variant of the command token
with the same arguments is dispatched identically, producing the same
store, operations and reply; `/spent` is the exception because its handler
re-parses the raw text case-sensitively. -/
theorem c7_case_insensitive_amended (cfg : Config) (st : Store)
    (chat uid : Int) (uname : List Char) (tok tokB : List Char)
    (args : List (List Char)) (htok : IsTok tok) (htokB : IsTok tokB)
    (hargs : TokList args) (hlow : tok.map lowCh = tokB.map lowCh)
    (hh1 : ∃ r, tok = '/' :: r) (hh2 : ∃ r, tokB = '/' :: r)
    (hnot : tok.map lowCh ≠ "/spent".data) :
    handleMessage cfg st ⟨chat, uid, uname, joinWith sp (tok :: args)⟩ =
      handleMessage cfg st ⟨chat, uid, uname, joinWith sp (tokB :: args)⟩ := by
  have htl1 : TokList (tok :: args) := by
    intro t ht
    simp only [List.mem_cons] at ht
    rcases ht with rfl | ht
    · exact htok
    · exact hargs t ht
  have htl2 : TokList (tokB :: args) := by
    intro t ht
    simp only [List.mem_cons] at ht
    rcases ht with rfl | ht
    · exact htokB
    · exact hargs t ht
  by_cases hallow : is_allowed cfg uid = true
  · rw [handleMessage_slash cfg st _ tok args htl1 hh1 hallow rfl,
      handleMessage_slash cfg st _ tokB args htl2 hh2 hallow rfl, ← hlow]
    exact dispatch_text_irrel cfg st uid uname chat _ _ (tok.map lowCh) args hnot
  · have hfalse : is_allowed cfg uid = false := by
      cases hab : is_allowed cfg uid
      · rfl
      · exact absurd hab hallow
    unfold handleMessage
    simp only [hfalse, if_pos trivial]

/-- Witness for C7 amended on `/ME` versus `/me`. -/
theorem c7_amended_witness :
    IsTok "/ME".data ∧ IsTok "/me".data ∧
    ("/ME".data).map lowCh = ("/me".data).map lowCh ∧
    ("/ME".data).map lowCh ≠ "/spent".data ∧
    handleMessage cfgOpen stThree ⟨1, 7, "u".data, joinWith sp ["/ME".data]⟩ =
      handleMessage cfgOpen stThree ⟨1, 7, "u".data, joinWith sp ["/me".data]⟩ :=
  ⟨by decide, by decide, by decide, by decide,
   c7_case_insensitive_amended cfgOpen stThree 1 7 "u".data "/ME".data "/me".data []
     (by decide) (by decide) (by decide) (by decide)
     ⟨"ME".data, by decide⟩ ⟨"me".data, by decide⟩ (by decide)⟩

/-- C9: reading the budget is total and falls back to the environment
default in exactly three cases: the settings row is absent, the stored
value is the empty string, or the stored value does not parse as a
number; a nonempty parseable value is returned as the decoded budget. -/
theorem c9_get_budget_fallbacks (cfg : Config) (st : Store) :
    (get_setting st budgetKey = none → get_budget cfg st = cfg.monthly_budget_env) ∧
    (get_setting st budgetKey = some [] → get_budget cfg st = cfg.monthly_budget_env) ∧
    (∀ val, get_setting st budgetKey = some val → parseFloatL val = none →
      get_budget cfg st = cfg.monthly_budget_env) ∧
    (∀ val q, get_setting st budgetKey = some val → val ≠ [] →
      parseFloatL val = some q → get_budget cfg st = q) := by
  refine ⟨?_, ?_, ?_, ?_⟩
  · intro h
    simp only [get_budget, h]
  · intro h
    simp only [get_budget, h]
    rfl
  · intro val h hp
    simp only [get_budget, h]
    by_cases hv : val = []
    · rw [if_pos hv]
    · rw [if_neg hv, hp]
  · intro val q h hv hp
    simp only [get_budget, h]
    rw [if_neg hv, hp]

/-- Witness for C9 at a missing row, an empty value, an unparseable value
and a parseable value. -/
theorem c9_witness :
    get_setting stNoBudget budgetKey = none ∧
    get_budget cfgOpen stNoBudget = cfgOpen.monthly_budget_env ∧
    get_setting stEmptyVal budgetKey = some [] ∧
    get_budget cfgOpen stEmptyVal = cfgOpen.monthly_budget_env ∧
    get_setting stBadVal budgetKey = some ("abc".data) ∧
    parseFloatL "abc".data = none ∧
    get_budget cfgOpen stBadVal = cfgOpen.monthly_budget_env ∧
    get_budget cfgOpen stEmpty = 300 :=
  ⟨by decide, (c9_get_budget_fallbacks cfgOpen stNoBudget).1 (by decide),
   by decide, (c9_get_budget_fallbacks cfgOpen stEmptyVal).2.1 (by decide),
   by decide, by with_unfolding_all decide,
   (c9_get_budget_fallbacks cfgOpen stBadVal).2.2.1 ("abc".data) (by decide)
     (by with_unfolding_all decide),
   (c9_get_budget_fallbacks cfgOpen stEmpty).2.2.2 ("300".data) 300 (by decide)
     (by decide) (by with_unfolding_all decide)⟩

/-- C10: the parser strips `/spent` as a raw character prefix, not as a
whitespace-delimited token: an input whose first token is the literal
characters `/spent` immediately followed by a decimal amount (no space)
still parses to the expense triple of that amount. -/
theorem c10_spent_prefix_no_space (a c : List Char) (ns : List (List Char))
    (v : ℚ) (ha : AmtTok a) (hc : IsTok c) (hns : TokList ns)
    (hv : parseFloatL a = some v) :
    parse_expense_text (joinWith sp ((spentTok ++ a) :: c :: ns)) =
      some (v, c, joinWith sp ns) := by
  have hta : IsTok a := amtTok_isTok a ha
  have htl : TokList ((spentTok ++ a) :: c :: ns) := by
    intro t ht
    simp only [List.mem_cons] at ht
    rcases ht with rfl | rfl | ht
    · refine ⟨fun hx => absurd (List.append_eq_nil.mp hx).2 hta.1, ?_⟩
      intro ch hch
      rcases List.mem_append.mp hch with hch | hch
      · exact (by decide : ∀ x ∈ spentTok, isWs x = false) ch hch
      · exact hta.2 ch hch
    · exact hc
    · exact hns t ht
  have htl3 : TokList (a :: c :: ns) := amt_toklist a c ns ha hc hns
  obtain ⟨ch, t0, hat⟩ : ∃ ch t0, a = ch :: t0 := by
    cases a with
    | nil => exact absurd rfl ha.1
    | cons x xs => exact ⟨x, xs, rfl⟩
  have hch : isDigitCh ch = true ∨ ch = '.' := ha.2 ch (by simp [hat])
  obtain ⟨r, hr⟩ := joinWith_head ch t0 (c :: ns)
  unfold parse_expense_text
  rw [pyStrip_join _ htl, joinWith_cons sp _ _ (by simp)]
  unfold stripSpent
  rw [List.append_assoc, List.append_assoc, isPre_append, if_pos rfl,
    show (6 : Nat) = spentTok.length from by decide, List.drop_left,
    ← List.append_assoc, ← joinWith_cons sp a (c :: ns) (by simp),
    pyStrip_join _ htl3, hat, hr,
    stripAdd_id ch r (amtChar_lowCh_ne_a ch hch), ← hr, ← hat]
  exact parseTail_core a c ns v ha hc hns hv

/-- Witness for C10 on the input `/spent50 food`. -/
theorem c10_witness :
    joinWith sp [spentTok ++ "50".data, "food".data] = "/spent50 food".data ∧
    AmtTok "50".data ∧ IsTok "food".data ∧
    parseFloatL "50".data = some 50 ∧
    parse_expense_text (joinWith sp [(spentTok ++ "50".data), "food".data]) =
      some (50, "food".data, joinWith sp []) :=
  ⟨by decide, by decide, by decide, by with_unfolding_all decide,
   c10_spent_prefix_no_space "50".data "food".data [] 50 (by decide) (by decide)
     (by decide) (by with_unfolding_all decide)⟩
